import Mathlib

/-! # cryptbson: application-level encryption for BSON documents

A shallow embedding of `cryptbson.go` and a verification of its envelope codec
(`Box` / `Unbox`), its sender identity (`Agent`) and its receiver registry
(`Collector`).

The third-party collaborators the package calls (`crypto/rand`, `io.ReadFull`,
`nacl/box`, `mgo.v2/bson`) are parameters of the development, collected in
`Primitives`.  Each embedded function returns, next to its Go results, the list
of collaborator calls, lock operations and map accesses it performed, in
program order.
-/

namespace Cryptbson

/-! ## Data model -/

/-- One byte. -/
abbrev Byte := Fin 256

/-- Go `[n]byte`: a byte array of fixed length. -/
abbrev Bytes (n : Nat) := { l : List Byte // l.length = n }

/-- The zero value of `[n]byte` (`var x [n]byte`, `new([n]byte)`, `[n]byte{}`). -/
def Bytes.zero (n : Nat) : Bytes n := ⟨List.replicate n 0, List.length_replicate n 0⟩

/-- Go `copy(dst[:], src)`: the first `min n (len src)` elements of `dst` are
overwritten with those of `src`, the others are kept. -/
def Bytes.copy {n : Nat} (dst : Bytes n) (src : List Byte) : Bytes n :=
  ⟨src.take n ++ dst.val.drop src.length, by
    have h := dst.property
    simp only [List.length_append, List.length_take, List.length_drop, h]
    omega⟩

/-- Source constant `cNonceSize`. -/
def cNonceSize : Nat := 24

/-- Source constant `cTagLabel`. -/
def cTagLabel : String := "encrypt"

/-- Go `[32]byte`: public keys, private keys and shared keys. -/
abbrev Key32 := Bytes 32

/-- Go `[cNonceSize]byte`. -/
abbrev Nonce := Bytes cNonceSize

/-- Go `error` values, told apart by the text their `Error()` method returns.
The errors the package builds with `fmt.Errorf` and the errors a collaborator
(random source, serializer, key generation) hands back are values of this one
type: an error carries no mark of where it was built. -/
structure GoError where
  text : String
deriving DecidableEq, Repr

/-- Go `err.Error()`. -/
def GoError.Error (e : GoError) : String := e.text

/-- Go `fmt.Errorf`, applied to the formatted message. -/
def Errorf (msg : String) : GoError := { text := msg }

/-- What a call did besides computing its result: collaborator calls, operations
on the `sync.RWMutex` of the receiver, and accesses to the `sharedKeys` map. -/
inductive Event where
  | marshal
  | readFull (n : Nat)
  | sealBox (out message : List Byte) (nonce : Nonce) (key : Key32)
  | openBox (out box : List Byte) (nonce : Nonce) (key : Key32)
  | unmarshal (plain : List Byte)
  | generateKey
  | precompute (peersPublicKey privateKey : Key32)
  | rlock
  | runlock
  | lock
  | unlock
  | mapRead (key : String)
  | mapWrite (key : String)
deriving DecidableEq, Repr

/-- The collaborators of the package.  `Doc` is the type of the documents handed
to the serializer, `ρ` the state of the process-wide random source
`rand.Reader`.

* `readFull n` is `io.ReadFull(rand.Reader, buf)` for a buffer of `n` bytes;
* `generateKey` is `box.GenerateKey(rand.Reader)`, returning
  `(publicKey, privateKey)`;
* `precompute peersPublicKey privateKey` is the key written by `box.Precompute`;
* `sealBox message nonce key` is the sealed box that `box.SealAfterPrecomputation`
  appends to its `out` argument;
* `openBox box nonce key` is the plaintext that `box.OpenAfterPrecomputation`
  appends to its `out` argument, `none` when authentication fails;
* `marshal` is `bson.Marshal`;
* `unmarshal plain v` is `bson.Unmarshal(plain, &v)`: the error it returns and
  the value the target holds afterwards. -/
structure Primitives (Doc : Type) (ρ : Type) where
  readFull : (n : Nat) → ρ → Except GoError (Bytes n) × ρ
  generateKey : ρ → Except GoError (Key32 × Key32) × ρ
  precompute : Key32 → Key32 → Key32
  sealBox : List Byte → Nonce → Key32 → List Byte
  openBox : List Byte → Nonce → Key32 → Option (List Byte)
  marshal : Doc → Except GoError (List Byte)
  unmarshal : List Byte → Doc → Option GoError × Doc

variable {Doc ρ : Type}

/-- Library wrapper `box.SealAfterPrecomputation(out, message, nonce, key)`: the
sealed box is appended to `out`. -/
def Primitives.SealAfterPrecomputation (P : Primitives Doc ρ)
    (out message : List Byte) (nonce : Nonce) (key : Key32) : List Byte :=
  out ++ P.sealBox message nonce key

/-- Library wrapper `box.OpenAfterPrecomputation(out, box, nonce, key)`: on
success the plaintext is appended to `out`; `none` is the result `(nil, false)`. -/
def Primitives.OpenAfterPrecomputation (P : Primitives Doc ρ)
    (out box : List Byte) (nonce : Nonce) (key : Key32) : Option (List Byte) :=
  (P.openBox box nonce key).map (out ++ ·)

/-! ## Envelope codec -/

/-- Result of `Box`: the Go results `([]byte, error)` as an `Except`, the
random source afterwards, and the calls made. -/
structure BoxResult (ρ : Type) where
  ret : Except GoError (List Byte)
  rand : ρ
  trace : List Event

/-- Source function `Box(sharedKey [32]byte, v interface{}) ([]byte, error)`. -/
def Box (P : Primitives Doc ρ) (sharedKey : Key32) (v : Doc) (r : ρ) : BoxResult ρ :=
  match P.marshal v with
  | .error err => { ret := .error err, rand := r, trace := [.marshal] }
  | .ok plain =>
    match P.readFull cNonceSize r with
    | (.error err, r1) =>
      { ret := .error err, rand := r1, trace := [.marshal, .readFull cNonceSize] }
    | (.ok nonce, r1) =>
      let ciphered := P.SealAfterPrecomputation nonce.val plain nonce sharedKey
      { ret := .ok ciphered, rand := r1,
        trace := [.marshal, .readFull cNonceSize, .sealBox nonce.val plain nonce sharedKey] }

/-- The error built at the length check of `Unbox`. -/
def errTooShort : GoError :=
  Errorf ("encrypted data too short should be at least " ++ toString cNonceSize ++ " bytes long")

/-- The error built when `box.OpenAfterPrecomputation` reports failure. -/
def errUnbox : GoError :=
  Errorf "unable to unbox the ciphered message"

/-- Result of `Unbox`: the returned `error` (`none` is `nil`), the value the
target `v` holds afterwards, and the calls made. -/
structure UnboxResult (Doc : Type) where
  err : Option GoError
  v : Doc
  trace : List Event

/-- The nonce `Unbox` reads off an envelope: `var nonce [cNonceSize]byte;
copy(nonce[:], data[:cNonceSize])`. -/
def nonceOf (data : List Byte) : Nonce :=
  (Bytes.zero cNonceSize).copy (data.take cNonceSize)

/-- Source function `Unbox(data []byte, sharedKey [32]byte, v interface{}) error`;
`v` is the value the target holds on entry. -/
def Unbox (P : Primitives Doc ρ) (data : List Byte) (sharedKey : Key32) (v : Doc) :
    UnboxResult Doc :=
  if data.length < cNonceSize then
    { err := some errTooShort, v := v, trace := [] }
  else
    let nonce := nonceOf data
    match P.OpenAfterPrecomputation [] (data.drop cNonceSize) nonce sharedKey with
    | none =>
      { err := some errUnbox, v := v,
        trace := [.openBox [] (data.drop cNonceSize) nonce sharedKey] }
    | some plain =>
      match P.unmarshal plain v with
      | (some err, v1) =>
        { err := some err, v := v1,
          trace := [.openBox [] (data.drop cNonceSize) nonce sharedKey, .unmarshal plain] }
      | (none, v1) =>
        { err := none, v := v1,
          trace := [.openBox [] (data.drop cNonceSize) nonce sharedKey, .unmarshal plain] }

/-! ## Sender identity and receiver registry -/

/-- Result of a method with a pointer receiver: the Go result, the receiver
afterwards, and the calls made. -/
structure MethodResult (σ α : Type) where
  ret : α
  self : σ
  trace : List Event

/-- Source type `Agent`; its `mtx` shows as lock events of its methods. -/
structure Agent where
  sharedKey : Key32
  publicKey : Key32
deriving DecidableEq

/-- Result of `NewAgent`: the Go results `(*Agent, error)` as an `Except`, the
random source afterwards, and the calls made. -/
structure NewAgentResult (ρ : Type) where
  ret : Except GoError Agent
  rand : ρ
  trace : List Event

/-- Source function `NewAgent(recipientPublicKey [32]byte) (*Agent, error)`. -/
def NewAgent (P : Primitives Doc ρ) (recipientPublicKey : Key32) (r : ρ) : NewAgentResult ρ :=
  match P.generateKey r with
  | (.error err, r1) =>
    { ret := .error (Errorf ("unable to produce sender key-pair: " ++ err.Error)),
      rand := r1, trace := [.generateKey] }
  | (.ok (senderPublicKey, senderPrivateKey), r1) =>
    let ag : Agent := { publicKey := senderPublicKey, sharedKey := Bytes.zero 32 }
    let ag : Agent := { ag with sharedKey := P.precompute recipientPublicKey senderPrivateKey }
    { ret := .ok ag, rand := r1,
      trace := [.generateKey, .precompute recipientPublicKey senderPrivateKey] }

/-- Source method `(a *Agent) PublicKey() [32]byte`. -/
def Agent.PublicKey (a : Agent) : MethodResult Agent Key32 :=
  { ret := a.publicKey, self := a, trace := [.rlock, .runlock] }

/-- Source method `(a *Agent) SharedKey() [32]byte`. -/
def Agent.SharedKey (a : Agent) : MethodResult Agent Key32 :=
  { ret := a.sharedKey, self := a, trace := [.rlock, .runlock] }

/-- Go `map[string]*[32]byte`; every stored pointer comes from its own `new`, so
the map is modelled by the values pointed to. -/
abbrev KeyMap := String → Option Key32

/-- Go `make(map[string]*[32]byte)`. -/
def KeyMap.empty : KeyMap := fun _ => none

/-- Go `m[k] = v`. -/
def KeyMap.set (m : KeyMap) (k : String) (v : Key32) : KeyMap :=
  fun k1 => if k1 = k then some v else m k1

/-- Source type `Collector`; its `mtx` shows as lock events of its methods. -/
structure Collector where
  publicKey : Key32
  privateKey : Key32
  sharedKeys : KeyMap

/-- Source function `NewCollector(privateKey, publicKey [32]byte) (*Collector, error)`;
the second component is the returned `error`, always `nil`. -/
def NewCollector (privateKey publicKey : Key32) : Collector × Option GoError :=
  ({ privateKey := privateKey, publicKey := publicKey, sharedKeys := KeyMap.empty }, none)

/-- Source method `(c *Collector) PublicKey() [32]byte`. -/
def Collector.PublicKey (c : Collector) : MethodResult Collector Key32 :=
  { ret := c.publicKey, self := c, trace := [.rlock, .runlock] }

/-- Source method `(c *Collector) SharedKey(agent string) ([32]byte, bool)`. -/
def Collector.SharedKey (c : Collector) (agent : String) : MethodResult Collector (Key32 × Bool) :=
  match c.sharedKeys agent with
  | none => { ret := (Bytes.zero 32, false), self := c, trace := [.mapRead agent] }
  | some value => { ret := (value, true), self := c, trace := [.mapRead agent] }

/-- Source method `(c *Collector) PrecomputeForAgent(agent string,
senderPublicKey [32]byte) error`. -/
def Collector.PrecomputeForAgent (P : Primitives Doc ρ) (c : Collector) (agent : String)
    (senderPublicKey : Key32) : MethodResult Collector (Option GoError) :=
  let sharedKey := P.precompute senderPublicKey c.privateKey
  { ret := none,
    self := { c with sharedKeys := c.sharedKeys.set agent sharedKey },
    trace := [.rlock, .precompute senderPublicKey c.privateKey, .runlock,
              .lock, .mapWrite agent, .unlock] }

/-- A list of registrations `(identifier, senderPublicKey)` applied in order. -/
def registerAll (P : Primitives Doc ρ) (c : Collector) : List (String × Key32) → Collector
  | [] => c
  | (agent, senderPublicKey) :: rest =>
    registerAll P (c.PrecomputeForAgent P agent senderPublicKey).self rest

/-- The locking discipline of the registry, checked along the events of one
call: starting with `readers` read locks and the exclusive lock held or not
(`writer`), every read of the map happens with a read lock or the exclusive lock
held, and every write of the map with the exclusive lock held. -/
def guardedFrom (readers : Nat) (writer : Bool) : List Event → Bool
  | [] => true
  | .rlock :: es => guardedFrom (readers + 1) writer es
  | .runlock :: es => guardedFrom (readers - 1) writer es
  | .lock :: es => guardedFrom readers true es
  | .unlock :: es => guardedFrom readers false es
  | .mapRead _ :: es => (decide (0 < readers) || writer) && guardedFrom readers writer es
  | .mapWrite _ :: es => writer && guardedFrom readers writer es
  | _ :: es => guardedFrom readers writer es

/-- A call that starts with no lock held keeps the locking discipline. -/
def guarded (trace : List Event) : Bool := guardedFrom 0 false trace

/-! ## A small instance of the collaborators

A finite entropy stream, a commutative toy key agreement, a sealed box that
prefixes a 16-byte tag, and a length-prefixed serializer of the test document
`fakeData`.  It is used to run the embedded functions on concrete inputs. -/

/-- Test type `fakeData`, with its two fields as byte strings. -/
structure fakeData where
  Title : List Byte
  Message : List Byte
deriving DecidableEq, Repr

/-- Reading `n` bytes off a finite entropy stream. -/
def toyReadFull (n : Nat) (s : List Byte) : Except GoError (Bytes n) × List Byte :=
  if h : n ≤ s.length then
    (.ok ⟨s.take n, by simp only [List.length_take]; omega⟩, s.drop n)
  else
    (.error ⟨"unexpected EOF"⟩, [])

/-- Toy public key of a private key. -/
def toyPublic (priv : Key32) : Key32 :=
  ⟨priv.val.map (3 * ·), by simp only [List.length_map]; exact priv.property⟩

/-- Toy key generation: 32 bytes of entropy are the private key. -/
def toyGenerateKey (s : List Byte) : Except GoError (Key32 × Key32) × List Byte :=
  match toyReadFull 32 s with
  | (.error e, s1) => (.error e, s1)
  | (.ok priv, s1) => (.ok (toyPublic priv, priv), s1)

/-- Toy key agreement: the bytewise product. -/
def toyPrecompute (peer priv : Key32) : Key32 :=
  ⟨List.zipWith (· * ·) peer.val priv.val, by
    have h1 := peer.property
    have h2 := priv.property
    simp only [List.length_zipWith, h1, h2, min_self]⟩

/-- Toy tag length. -/
def toyOverhead : Nat := 16

/-- Toy authentication tag of a nonce and a key. -/
def toyTag (nonce : Nonce) (key : Key32) : List Byte :=
  (List.zipWith (· + ·) nonce.val key.val).take toyOverhead

/-- Toy sealed box: the tag, then the message. -/
def toySeal (message : List Byte) (nonce : Nonce) (key : Key32) : List Byte :=
  toyTag nonce key ++ message

/-- Toy opening: the tag is checked, then stripped. -/
def toyOpen (box : List Byte) (nonce : Nonce) (key : Key32) : Option (List Byte) :=
  if box.take toyOverhead = toyTag nonce key then some (box.drop toyOverhead) else none

/-- Toy serializer: the length of the title, the title, the message; titles of
16 bytes or more are refused. -/
def toyMarshal (d : fakeData) : Except GoError (List Byte) :=
  if d.Title.length < 16 then
    .ok (Fin.ofNat d.Title.length :: (d.Title ++ d.Message))
  else
    .error ⟨"title too long"⟩

/-- Toy deserializer; the target is written only on success. -/
def toyUnmarshal (plain : List Byte) (v : fakeData) : Option GoError × fakeData :=
  match plain with
  | [] => (some ⟨"empty document"⟩, v)
  | n :: rest =>
    if n.val ≤ rest.length then
      (none, { Title := rest.take n.val, Message := rest.drop n.val })
    else
      (some ⟨"truncated document"⟩, v)

/-- The toy collaborators. -/
def toy : Primitives fakeData (List Byte) where
  readFull := toyReadFull
  generateKey := toyGenerateKey
  precompute := toyPrecompute
  sealBox := toySeal
  openBox := toyOpen
  marshal := toyMarshal
  unmarshal := toyUnmarshal

/-- The toy collaborators with a deserializer that hands back an error of the
target, as `bson.Unmarshal` does with the error of a target's `SetBSON`; here
the target answers with the text of the length error of `Unbox`. -/
def setterToy : Primitives fakeData (List Byte) :=
  { toy with unmarshal := fun _ v => (some errTooShort, v) }

/-- A key with all bytes equal to `b`. -/
def constKey (b : Byte) : Key32 := ⟨List.replicate 32 b, List.length_replicate 32 b⟩

/-- An entropy stream of `n` bytes `b, b+1, ...`. -/
def entropy (b : Byte) (n : Nat) : List Byte := (List.range n).map (fun i => b + Fin.ofNat i)

/-- The document of `TestBox`, shortened. -/
def testDoc : fakeData := { Title := [84, 101, 115, 116], Message := [104, 105] }

/-- The zero value of `fakeData`. -/
def emptyDoc : fakeData := { Title := [], Message := [] }

/-- The envelope `Box` makes of `testDoc` under the key of all fives with the
entropy `1, 2, ...`: the nonce `1..24`, the tag `6..21`, the serialized document. -/
def testEnvelope : List Byte :=
  [1, 2, 3, 4, 5, 6, 7, 8, 9, 10, 11, 12, 13, 14, 15, 16, 17, 18, 19, 20, 21, 22, 23, 24,
   6, 7, 8, 9, 10, 11, 12, 13, 14, 15, 16, 17, 18, 19, 20, 21,
   4, 84, 101, 115, 116, 104, 105]

/-- The envelope `testEnvelope` with the lowest bit of the byte at offset 24 flipped. -/
def tamperedEnvelope : List Byte :=
  [1, 2, 3, 4, 5, 6, 7, 8, 9, 10, 11, 12, 13, 14, 15, 16, 17, 18, 19, 20, 21, 22, 23, 24,
   7, 7, 8, 9, 10, 11, 12, 13, 14, 15, 16, 17, 18, 19, 20, 21,
   4, 84, 101, 115, 116, 104, 105]

/-! ## Auxiliary facts -/

section Lemmas

variable {Doc ρ : Type}

theorem errTooShort_eq :
    errTooShort = Errorf "encrypted data too short should be at least 24 bytes long" := by
  decide

theorem errUnbox_ne_errTooShort : errUnbox ≠ errTooShort := by decide

/-- The nonce read off an envelope is its first `cNonceSize` bytes. -/
theorem nonceOf_val (data : List Byte) (h : cNonceSize ≤ data.length) :
    (nonceOf data).val = data.take cNonceSize := by
  have hl : (data.take cNonceSize).length = cNonceSize := by
    rw [List.length_take]; omega
  show (data.take cNonceSize).take cNonceSize
      ++ (List.replicate cNonceSize 0).drop (data.take cNonceSize).length = data.take cNonceSize
  rw [hl, List.take_take, min_self]
  have : (List.replicate cNonceSize (0 : Byte)).drop cNonceSize = [] := by
    apply List.drop_eq_nil_of_le
    rw [List.length_replicate]
  rw [this, List.append_nil]

theorem take_nonce_append (nonce : Nonce) (rest : List Byte) :
    (nonce.val ++ rest).take cNonceSize = nonce.val := by
  have h := nonce.property
  rw [List.take_append_of_le_length (by omega)]
  exact List.take_of_length_le (by omega)

theorem drop_nonce_append (nonce : Nonce) (rest : List Byte) :
    (nonce.val ++ rest).drop cNonceSize = rest := by
  have h := nonce.property
  have h1 := List.drop_left nonce.val rest
  rwa [h] at h1

/-- Reading the nonce off `nonce || rest` gives `nonce` back. -/
theorem nonceOf_append (nonce : Nonce) (rest : List Byte) :
    nonceOf (nonce.val ++ rest) = nonce := by
  apply Subtype.ext
  have h := nonce.property
  rw [nonceOf_val _ (by rw [List.length_append]; omega)]
  exact take_nonce_append nonce rest

/-- The three ways `Box` can go, read off its result. -/
theorem Box_ok_iff (P : Primitives Doc ρ) (s : Key32) (d : Doc) (r : ρ) (env : List Byte) :
    (Box P s d r).ret = .ok env ↔
      ∃ plain nonce r1, P.marshal d = .ok plain ∧ P.readFull cNonceSize r = (.ok nonce, r1) ∧
        env = nonce.val ++ P.sealBox plain nonce s := by
  unfold Box
  constructor
  · intro h
    split at h
    · simp at h
    · rename_i plain hm
      split at h
      · simp at h
      · rename_i nonce r1 hr
        refine ⟨plain, nonce, r1, hm, hr, ?_⟩
        simp only [Primitives.SealAfterPrecomputation, Except.ok.injEq] at h
        exact h.symm
  · rintro ⟨plain, nonce, r1, hm, hr, rfl⟩
    simp only [hm, hr, Primitives.SealAfterPrecomputation]

/-- Opening an envelope `nonce || box` whose box opens to `plain`. -/
theorem Unbox_of_open (P : Primitives Doc ρ) (nonce : Nonce) (box plain : List Byte)
    (s : Key32) (v : Doc) (ho : P.openBox box nonce s = some plain) :
    (Unbox P (nonce.val ++ box) s v).err = (P.unmarshal plain v).1 ∧
      (Unbox P (nonce.val ++ box) s v).v = (P.unmarshal plain v).2 := by
  have hn := nonce.property
  have hlen : ¬ (nonce.val ++ box).length < cNonceSize := by
    rw [List.length_append]; omega
  unfold Unbox
  rw [if_neg hlen]
  simp only [nonceOf_append, drop_nonce_append, Primitives.OpenAfterPrecomputation, ho,
    Option.map_some', List.nil_append]
  rcases hu : P.unmarshal plain v with ⟨e, v1⟩
  cases e <;> simp
/-- What `Unbox` does on 24 bytes or more when the opening fails. -/
theorem Unbox_open_none (P : Primitives Doc ρ) (data : List Byte) (key : Key32) (v : Doc)
    (hlen : cNonceSize ≤ data.length)
    (ho : P.openBox (data.drop cNonceSize) (nonceOf data) key = none) :
    Unbox P data key v =
      { err := some errUnbox, v := v,
        trace := [.openBox [] (data.drop cNonceSize) (nonceOf data) key] } := by
  unfold Unbox
  rw [if_neg (by omega)]
  simp only [Primitives.OpenAfterPrecomputation, ho, Option.map_none']

/-- What `Unbox` does on 24 bytes or more when the opening succeeds. -/
theorem Unbox_open_some (P : Primitives Doc ρ) (data plain : List Byte) (key : Key32) (v : Doc)
    (hlen : cNonceSize ≤ data.length)
    (ho : P.openBox (data.drop cNonceSize) (nonceOf data) key = some plain) :
    (Unbox P data key v).err = (P.unmarshal plain v).1 ∧
      (Unbox P data key v).v = (P.unmarshal plain v).2 ∧
      (Unbox P data key v).trace =
        [.openBox [] (data.drop cNonceSize) (nonceOf data) key, .unmarshal plain] := by
  unfold Unbox
  rw [if_neg (by omega)]
  simp only [Primitives.OpenAfterPrecomputation, ho, Option.map_some', List.nil_append]
  rcases hu : P.unmarshal plain v with ⟨e, v1⟩
  cases e <;> simp
end Lemmas

/-! ## The envelope codec -/

section Codec

variable {Doc ρ : Type}

/-- C1 (round trip). For a document `d` the serializer accepts (`marshal d`
gives `plain`), a shared key `s` and a nonce supplied by the random source:
if opening the sealed `plain` under the same key and nonce gives `plain` back,
and deserializing `plain` into the target gives `d`, then `Box` succeeds with
an envelope on which `Unbox` under `s` returns no error and leaves the target
equal to `d`. -/
theorem Box_Unbox_roundtrip (P : Primitives Doc ρ) (s : Key32) (d v0 : Doc) (r r1 : ρ)
    (plain : List Byte) (nonce : Nonce)
    (hm : P.marshal d = .ok plain)
    (hr : P.readFull cNonceSize r = (.ok nonce, r1))
    (hinv : P.openBox (P.sealBox plain nonce s) nonce s = some plain)
    (hrt : P.unmarshal plain v0 = (none, d)) :
    ∃ env, (Box P s d r).ret = .ok env ∧
      (Unbox P env s v0).err = none ∧ (Unbox P env s v0).v = d := by
  refine ⟨nonce.val ++ P.sealBox plain nonce s, ?_, ?_⟩
  · exact (Box_ok_iff P s d r _).2 ⟨plain, nonce, r1, hm, hr, rfl⟩
  · have h := Unbox_of_open P nonce _ plain s v0 hinv
    rw [hrt] at h
    exact h

/-- Witness of C1 on the toy collaborators: the test document, sealed under the
key of all fives with 24 bytes of entropy, is opened to itself. -/
theorem Box_Unbox_roundtrip_witness :
    ∃ env, (Box toy (constKey 5) testDoc (entropy 1 30)).ret = .ok env ∧
      (Unbox toy env (constKey 5) emptyDoc).err = none ∧
      (Unbox toy env (constKey 5) emptyDoc).v = testDoc :=
  Box_Unbox_roundtrip toy (constKey 5) testDoc emptyDoc (entropy 1 30) (entropy 25 6)
    [4, 84, 101, 115, 116, 104, 105] ⟨entropy 1 24, by decide⟩
    rfl rfl (by decide) (by decide)

/-- C3 as stated fails on its second half: on the 47-byte envelope
`testEnvelope`, opened under the key it was sealed with, a deserializer that
hands back an error with the text of the length error makes `Unbox` return that
error, after the opening and the deserialization have been made. -/
theorem Unbox_long_input_length_error :
    24 ≤ testEnvelope.length ∧
      (Unbox setterToy testEnvelope (constKey 5) emptyDoc).err = some errTooShort ∧
      (Unbox setterToy testEnvelope (constKey 5) emptyDoc).trace =
        [.openBox [] (testEnvelope.drop cNonceSize) (nonceOf testEnvelope) (constKey 5),
         .unmarshal [4, 84, 101, 115, 116, 104, 105]] := by
  decide

/-- C3, amended (length check). On data shorter than `cNonceSize` = 24 bytes,
the empty sequence included, `Unbox` returns the length error, makes no call at
all (no opening, no deserialization) and leaves the target as it was.  On data
of 24 bytes or more the length check does not fire: the opening is attempted,
the opening error is returned when it fails, and otherwise the error returned
is what the deserializer returned, unchanged; so the length error comes back
only when the deserializer itself returns it. -/
theorem Unbox_length_check (P : Primitives Doc ρ) (data : List Byte) (key : Key32) (v : Doc) :
    (data.length < 24 →
        Unbox P data key v = { err := some errTooShort, v := v, trace := [] }) ∧
      Unbox P [] key v = { err := some errTooShort, v := v, trace := [] } ∧
      (24 ≤ data.length →
        Event.openBox [] (data.drop cNonceSize) (nonceOf data) key
            ∈ (Unbox P data key v).trace ∧
          (P.openBox (data.drop cNonceSize) (nonceOf data) key = none →
            (Unbox P data key v).err = some errUnbox) ∧
          (∀ plain, P.openBox (data.drop cNonceSize) (nonceOf data) key = some plain →
            (Unbox P data key v).err = (P.unmarshal plain v).1) ∧
          ((Unbox P data key v).err = some errTooShort →
            ∃ plain, P.openBox (data.drop cNonceSize) (nonceOf data) key = some plain ∧
              (P.unmarshal plain v).1 = some errTooShort)) := by
  refine ⟨?_, ?_, ?_⟩
  · intro h
    unfold Unbox
    rw [if_pos (by simpa only [cNonceSize] using h)]
  · rfl
  · intro h
    have hlen : cNonceSize ≤ data.length := by simp only [cNonceSize]; omega
    rcases ho : P.openBox (data.drop cNonceSize) (nonceOf data) key with _ | plain
    · have hU := Unbox_open_none P data key v hlen ho
      rw [hU]
      refine ⟨List.mem_singleton.2 rfl, fun _ => rfl, ?_, ?_⟩
      · intro p hp
        cases hp
      · intro hc
        simp only [Option.some.injEq] at hc
        exact absurd hc errUnbox_ne_errTooShort
    · obtain ⟨herr, _, htr⟩ := Unbox_open_some P data plain key v hlen ho
      rw [herr, htr]
      refine ⟨List.mem_cons_self _ _, ?_, ?_, ?_⟩
      · intro hc
        cases hc
      · intro p hp
        cases hp
        rfl
      · intro hc
        exact ⟨plain, rfl, hc⟩

/-- Witness of C3, amended: 23 bytes are rejected with the length error and
nothing is called; on the 47-byte envelope the error returned is the one the
deserializer returned. -/
theorem Unbox_length_check_witness :
    Unbox toy (entropy 0 23) (constKey 5) testDoc
        = { err := some errTooShort, v := testDoc, trace := [] } ∧
      (Unbox setterToy testEnvelope (constKey 5) emptyDoc).err
        = (setterToy.unmarshal [4, 84, 101, 115, 116, 104, 105] emptyDoc).1 :=
  ⟨(Unbox_length_check toy (entropy 0 23) (constKey 5) testDoc).1 (by decide),
   ((Unbox_length_check setterToy testEnvelope (constKey 5) emptyDoc).2.2
      (by decide)).2.2.1 [4, 84, 101, 115, 116, 104, 105] (by decide)⟩

/-- C4 (fail closed on authentication failure). On an envelope of at least 24
bytes, if opening `data[24:]` under the key and the nonce `data[0:24]` fails,
`Unbox` returns the opening error, which is not the length error; the only call
it makes is that opening, so the deserializer is not called, and the target is
left as it was. -/
theorem Unbox_auth_failure (P : Primitives Doc ρ) (data : List Byte) (key : Key32) (v : Doc)
    (hlen : cNonceSize ≤ data.length)
    (hfail : P.openBox (data.drop cNonceSize) (nonceOf data) key = none) :
    (nonceOf data).val = data.take cNonceSize ∧
      Unbox P data key v =
        { err := some errUnbox, v := v,
          trace := [.openBox [] (data.drop cNonceSize) (nonceOf data) key] } ∧
      errUnbox ≠ errTooShort ∧
      (∀ plain, Event.unmarshal plain ∉ (Unbox P data key v).trace) := by
  have hU : Unbox P data key v =
      { err := some errUnbox, v := v,
        trace := [.openBox [] (data.drop cNonceSize) (nonceOf data) key] } := by
    unfold Unbox
    rw [if_neg (by omega)]
    simp only [Primitives.OpenAfterPrecomputation, hfail, Option.map_none']
  refine ⟨nonceOf_val data hlen, hU, errUnbox_ne_errTooShort, ?_⟩
  intro plain
  rw [hU]
  simp

/-- Witness of C4 on the toy collaborators: the envelope sealed under the key
of all fives is refused under the key of all sixes, and with one bit of its
byte at offset 24 flipped it is refused under the key of all fives. -/
theorem Unbox_auth_failure_witness :
    (Box toy (constKey 5) testDoc (entropy 1 30)).ret = .ok testEnvelope ∧
      Unbox toy tamperedEnvelope (constKey 5) emptyDoc =
        { err := some errUnbox, v := emptyDoc,
          trace := [.openBox [] (tamperedEnvelope.drop cNonceSize) (nonceOf tamperedEnvelope)
            (constKey 5)] } ∧
      (nonceOf testEnvelope).val = testEnvelope.take cNonceSize ∧
      Unbox toy testEnvelope (constKey 6) emptyDoc =
        { err := some errUnbox, v := emptyDoc,
          trace := [.openBox [] (testEnvelope.drop cNonceSize) (nonceOf testEnvelope)
            (constKey 6)] } ∧
      errUnbox ≠ errTooShort ∧
      (∀ plain, Event.unmarshal plain ∉ (Unbox toy testEnvelope (constKey 6) emptyDoc).trace) :=
  ⟨rfl,
   (Unbox_auth_failure toy tamperedEnvelope (constKey 5) emptyDoc (by decide) (by decide)).2.1,
   Unbox_auth_failure toy testEnvelope (constKey 6) emptyDoc (by decide) (by decide)⟩

/-- C5 (envelope format). Whenever `Box` succeeds, the serializer accepted
the document (giving `plain`), the random source supplied a nonce in this call,
and the returned bytes are exactly `nonce ++ sealBox plain nonce s`: the first
24 bytes are the nonce, the rest is the sealed box, and when sealing adds a
fixed `overhead` to every message the length is `24 + len plain + overhead`. -/
theorem Box_envelope_format (P : Primitives Doc ρ) (s : Key32) (d : Doc) (r : ρ)
    (env : List Byte) (h : (Box P s d r).ret = .ok env) :
    ∃ plain nonce r1, P.marshal d = .ok plain ∧
      P.readFull cNonceSize r = (.ok nonce, r1) ∧
      (Box P s d r).rand = r1 ∧
      (Box P s d r).trace =
        [.marshal, .readFull cNonceSize, .sealBox nonce.val plain nonce s] ∧
      env = nonce.val ++ P.sealBox plain nonce s ∧
      env.take 24 = nonce.val ∧
      env.drop 24 = P.sealBox plain nonce s ∧
      (∀ overhead, (∀ m n k, (P.sealBox m n k).length = m.length + overhead) →
        env.length = 24 + plain.length + overhead) := by
  obtain ⟨plain, nonce, r1, hm, hr, rfl⟩ := (Box_ok_iff P s d r env).1 h
  refine ⟨plain, nonce, r1, hm, hr, ?_, ?_, rfl, take_nonce_append nonce _,
    drop_nonce_append nonce _, ?_⟩
  · unfold Box
    simp only [hm, hr]
  · unfold Box
    simp only [hm, hr]
  · intro overhead ho
    have hn : nonce.val.length = 24 := nonce.property
    rw [List.length_append, ho, hn]
    omega

/-- Witness of C5 on the toy collaborators, whose sealing adds 16 bytes. -/
theorem Box_envelope_format_witness :
    ∃ plain nonce r1, toy.marshal testDoc = .ok plain ∧
      toy.readFull cNonceSize (entropy 1 30) = (.ok nonce, r1) ∧
      (Box toy (constKey 5) testDoc (entropy 1 30)).rand = r1 ∧
      (Box toy (constKey 5) testDoc (entropy 1 30)).trace =
        [.marshal, .readFull cNonceSize, .sealBox nonce.val plain nonce (constKey 5)] ∧
      testEnvelope = nonce.val ++ toy.sealBox plain nonce (constKey 5) ∧
      testEnvelope.take 24 = nonce.val ∧
      testEnvelope.drop 24 = toy.sealBox plain nonce (constKey 5) ∧
      (∀ overhead, (∀ m n k, (toy.sealBox m n k).length = m.length + overhead) →
        testEnvelope.length = 24 + plain.length + overhead) :=
  Box_envelope_format toy (constKey 5) testDoc (entropy 1 30) testEnvelope rfl

/-- C10 (failures of `Box`). When the serializer fails, `Box` returns its error
as it is, the random source is untouched and the serializer is the only
collaborator called; when the serializer succeeds and the random source fails to
supply 24 bytes, `Box` returns the error of the random source and nothing is
sealed; otherwise `Box` returns a non-empty envelope.  So `Box` returns an error
exactly in the first two cases. -/
theorem Box_failure_cases (P : Primitives Doc ρ) (s : Key32) (d : Doc) (r : ρ) :
    (∀ e, P.marshal d = .error e →
        Box P s d r = { ret := .error e, rand := r, trace := [.marshal] }) ∧
      (∀ plain e r1, P.marshal d = .ok plain → P.readFull cNonceSize r = (.error e, r1) →
        Box P s d r = { ret := .error e, rand := r1,
                        trace := [.marshal, .readFull cNonceSize] }) ∧
      (∀ plain nonce r1, P.marshal d = .ok plain → P.readFull cNonceSize r = (.ok nonce, r1) →
        ∃ env, (Box P s d r).ret = .ok env ∧ env ≠ []) ∧
      ((∃ err, (Box P s d r).ret = .error err) ↔
        ((∃ e, P.marshal d = .error e) ∨
          ∃ plain e r1, P.marshal d = .ok plain ∧
            P.readFull cNonceSize r = (.error e, r1))) := by
  refine ⟨?_, ?_, ?_, ?_⟩
  · intro e hm
    unfold Box
    simp only [hm]
  · intro plain e r1 hm hr
    unfold Box
    simp only [hm, hr]
  · intro plain nonce r1 hm hr
    refine ⟨nonce.val ++ P.sealBox plain nonce s,
      (Box_ok_iff P s d r _).2 ⟨plain, nonce, r1, hm, hr, rfl⟩, ?_⟩
    intro hnil
    have hn : nonce.val.length = 24 := nonce.property
    have := congrArg List.length hnil
    rw [List.length_append, hn] at this
    simp at this
  · unfold Box
    rcases hm : P.marshal d with e | plain
    · simp
    · rcases hr : P.readFull cNonceSize r with ⟨res, r1⟩
      rcases res with e | nonce
      · simp
      · simp

/-- Witness of C10 on the toy collaborators: a title of 16 bytes is refused by
the serializer and no entropy is drawn; with 10 bytes of entropy left the random
source fails; with 30 bytes an envelope is returned. -/
theorem Box_failure_cases_witness :
    Box toy (constKey 5) { Title := entropy 0 16, Message := [] } (entropy 1 30)
        = { ret := .error ⟨"title too long"⟩, rand := entropy 1 30,
            trace := [.marshal] } ∧
      Box toy (constKey 5) testDoc (entropy 1 10)
        = { ret := .error ⟨"unexpected EOF"⟩, rand := [],
            trace := [.marshal, .readFull cNonceSize] } ∧
      ∃ env, (Box toy (constKey 5) testDoc (entropy 1 30)).ret = .ok env ∧ env ≠ [] :=
  ⟨(Box_failure_cases toy (constKey 5) { Title := entropy 0 16, Message := [] }
      (entropy 1 30)).1 ⟨"title too long"⟩ rfl,
   (Box_failure_cases toy (constKey 5) testDoc (entropy 1 10)).2.1
      [4, 84, 101, 115, 116, 104, 105] ⟨"unexpected EOF"⟩ [] rfl rfl,
   (Box_failure_cases toy (constKey 5) testDoc (entropy 1 30)).2.2.1
      [4, 84, 101, 115, 116, 104, 105] ⟨entropy 1 24, by decide⟩ (entropy 25 6) rfl rfl⟩

end Codec

/-! ## The sender identity -/

section Identity

variable {Doc ρ : Type}

/-- The two ways `NewAgent` can go, read off its result. -/
theorem NewAgent_ok_of_generateKey (P : Primitives Doc ρ) (peer : Key32) (r r1 : ρ)
    (pub priv : Key32) (hgen : P.generateKey r = (.ok (pub, priv), r1)) :
    NewAgent P peer r =
      { ret := .ok { publicKey := pub, sharedKey := P.precompute peer priv }, rand := r1,
        trace := [.generateKey, .precompute peer priv] } := by
  unfold NewAgent
  simp only [hgen]

/-- C9 (agent construction). `NewAgent` returns an error exactly when key
generation fails, and then the error is the wrapped text of the key-generation
error and no agent is returned; otherwise it returns an agent whose `PublicKey()`
is the generated public key and whose `SharedKey()` is the key precomputed from
the peer public key and the generated private key.  Both accessors leave the
agent as it is, so later calls return the same values. -/
theorem NewAgent_construction (P : Primitives Doc ρ) (peer : Key32) (r : ρ) :
    (∀ e r1, P.generateKey r = (.error e, r1) →
        NewAgent P peer r =
          { ret := .error (Errorf ("unable to produce sender key-pair: " ++ e.text)),
            rand := r1, trace := [.generateKey] }) ∧
      (∀ pub priv r1, P.generateKey r = (.ok (pub, priv), r1) →
        ∃ a, (NewAgent P peer r).ret = .ok a ∧
          a.PublicKey.ret = pub ∧ a.SharedKey.ret = P.precompute peer priv) ∧
      ((∃ err, (NewAgent P peer r).ret = .error err) ↔
        ∃ e r1, P.generateKey r = (.error e, r1)) ∧
      (∀ a : Agent, a.PublicKey.self = a ∧ a.SharedKey.self = a ∧
        a.PublicKey.self.PublicKey.ret = a.PublicKey.ret ∧
        a.SharedKey.self.PublicKey.ret = a.PublicKey.ret ∧
        a.PublicKey.self.SharedKey.ret = a.SharedKey.ret ∧
        a.SharedKey.self.SharedKey.ret = a.SharedKey.ret) := by
  refine ⟨?_, ?_, ?_, ?_⟩
  · intro e r1 hgen
    unfold NewAgent
    simp only [hgen, GoError.Error]
  · intro pub priv r1 hgen
    rw [NewAgent_ok_of_generateKey P peer r r1 pub priv hgen]
    exact ⟨_, rfl, rfl, rfl⟩
  · unfold NewAgent
    rcases hgen : P.generateKey r with ⟨res, r1⟩
    rcases res with e | ⟨pub, priv⟩
    · simp
    · simp
  · intro a
    exact ⟨rfl, rfl, rfl, rfl, rfl, rfl⟩

/-- Witness of C9 on the toy collaborators: with 10 bytes of entropy key
generation fails and so does `NewAgent`; with 40 bytes an agent is returned. -/
theorem NewAgent_construction_witness :
    NewAgent toy (constKey 6) (entropy 1 10) =
        { ret := .error (Errorf "unable to produce sender key-pair: unexpected EOF"),
          rand := [], trace := [.generateKey] } ∧
      ∃ a, (NewAgent toy (constKey 6) (entropy 1 40)).ret = .ok a ∧
        a.PublicKey.ret = toyPublic ⟨entropy 1 32, by decide⟩ ∧
        a.SharedKey.ret = toy.precompute (constKey 6) ⟨entropy 1 32, by decide⟩ :=
  ⟨(NewAgent_construction toy (constKey 6) (entropy 1 10)).1 ⟨"unexpected EOF"⟩ [] rfl,
   (NewAgent_construction toy (constKey 6) (entropy 1 40)).2.1
      (toyPublic ⟨entropy 1 32, by decide⟩) ⟨entropy 1 32, by decide⟩ (entropy 33 8) rfl⟩

end Identity

/-! ## The receiver registry -/

section Registry

variable {Doc ρ : Type}

theorem SharedKey_of_some (c : Collector) (agent : String) (k : Key32)
    (h : c.sharedKeys agent = some k) : (c.SharedKey agent).ret = (k, true) := by
  unfold Collector.SharedKey
  simp only [h]

theorem SharedKey_of_none (c : Collector) (agent : String)
    (h : c.sharedKeys agent = none) : (c.SharedKey agent).ret = (Bytes.zero 32, false) := by
  unfold Collector.SharedKey
  simp only [h]

theorem SharedKey_congr (c1 c2 : Collector) (agent : String)
    (h : c1.sharedKeys agent = c2.sharedKeys agent) :
    (c1.SharedKey agent).ret = (c2.SharedKey agent).ret := by
  unfold Collector.SharedKey
  rw [h]
  cases c2.sharedKeys agent <;> rfl

theorem PrecomputeForAgent_same (P : Primitives Doc ρ) (c : Collector) (agent : String)
    (pub : Key32) :
    (c.PrecomputeForAgent P agent pub).self.sharedKeys agent
      = some (P.precompute pub c.privateKey) := by
  simp [Collector.PrecomputeForAgent, KeyMap.set]

theorem PrecomputeForAgent_other (P : Primitives Doc ρ) (c : Collector) (agent other : String)
    (pub : Key32) (h : other ≠ agent) :
    (c.PrecomputeForAgent P agent pub).self.sharedKeys other = c.sharedKeys other := by
  simp [Collector.PrecomputeForAgent, KeyMap.set, h]

theorem PrecomputeForAgent_keys (P : Primitives Doc ρ) (c : Collector) (agent : String)
    (pub : Key32) :
    (c.PrecomputeForAgent P agent pub).self.privateKey = c.privateKey ∧
      (c.PrecomputeForAgent P agent pub).self.publicKey = c.publicKey :=
  ⟨rfl, rfl⟩

theorem registerAll_keys (P : Primitives Doc ρ) (regs : List (String × Key32)) (c : Collector) :
    (registerAll P c regs).privateKey = c.privateKey ∧
      (registerAll P c regs).publicKey = c.publicKey := by
  induction regs generalizing c with
  | nil => exact ⟨rfl, rfl⟩
  | cons p rest ih =>
    obtain ⟨agent, pub⟩ := p
    exact ih (c.PrecomputeForAgent P agent pub).self

theorem registerAll_not_mem (P : Primitives Doc ρ) (regs : List (String × Key32))
    (c : Collector) (id : String) (h : id ∉ regs.map Prod.fst) :
    (registerAll P c regs).sharedKeys id = c.sharedKeys id := by
  induction regs generalizing c with
  | nil => rfl
  | cons p rest ih =>
    obtain ⟨agent, pub⟩ := p
    simp only [List.map_cons, List.mem_cons, not_or] at h
    show (registerAll P (c.PrecomputeForAgent P agent pub).self rest).sharedKeys id = _
    rw [ih _ h.2]
    exact PrecomputeForAgent_other P c agent id pub h.1

theorem registerAll_mem (P : Primitives Doc ρ) (regs : List (String × Key32))
    (c : Collector) (hnd : (regs.map Prod.fst).Nodup) (p : String × Key32) (hp : p ∈ regs) :
    (registerAll P c regs).sharedKeys p.1 = some (P.precompute p.2 c.privateKey) := by
  induction regs generalizing c with
  | nil => cases hp
  | cons q rest ih =>
    obtain ⟨agent, pub⟩ := q
    simp only [List.map_cons, List.nodup_cons] at hnd
    show (registerAll P (c.PrecomputeForAgent P agent pub).self rest).sharedKeys p.1 = _
    rcases List.mem_cons.1 hp with rfl | hrest
    · rw [registerAll_not_mem P rest _ _ hnd.1]
      exact PrecomputeForAgent_same P c agent pub
    · exact ih (c.PrecomputeForAgent P agent pub).self hnd.2 hrest

/-- C2 (sender/receiver agreement). Let the registry be built from the receiver
key pair `(rPriv, rPub)` and the agent from `rPub`, key generation giving the
sender pair `(sPub, sPriv)`.  Under Diffie-Hellman symmetry for these two pairs,
after `PrecomputeForAgent(id, a.PublicKey())` the lookup `SharedKey(id)` finds
the key `a.SharedKey()`; and under the hypotheses of the round trip, the
envelope `Box(a.SharedKey(), d)` is opened to `d` with the key the lookup
returned. -/
theorem agent_collector_agreement (P : Primitives Doc ρ) (rPriv rPub sPub sPriv : Key32)
    (id : String) (d v0 : Doc) (r r1 r2 : ρ) (plain : List Byte) (nonce : Nonce)
    (hgen : P.generateKey r = (.ok (sPub, sPriv), r1))
    (hDH : P.precompute sPub rPriv = P.precompute rPub sPriv)
    (hm : P.marshal d = .ok plain)
    (hr : P.readFull cNonceSize r1 = (.ok nonce, r2))
    (hinv : P.openBox (P.sealBox plain nonce (P.precompute rPub sPriv)) nonce
      (P.precompute rPub sPriv) = some plain)
    (hrt : P.unmarshal plain v0 = (none, d)) :
    (NewCollector rPriv rPub).2 = none ∧
    ∃ a, (NewAgent P rPub r).ret = .ok a ∧ (NewAgent P rPub r).rand = r1 ∧
      (((NewCollector rPriv rPub).1.PrecomputeForAgent P id a.PublicKey.ret).self.SharedKey
          id).ret = (a.SharedKey.ret, true) ∧
      ∃ env, (Box P a.SharedKey.ret d r1).ret = .ok env ∧
        (Unbox P env
          (((NewCollector rPriv rPub).1.PrecomputeForAgent P id
              a.PublicKey.ret).self.SharedKey id).ret.1 v0).err = none ∧
        (Unbox P env
          (((NewCollector rPriv rPub).1.PrecomputeForAgent P id
              a.PublicKey.ret).self.SharedKey id).ret.1 v0).v = d := by
  refine ⟨rfl, { publicKey := sPub, sharedKey := P.precompute rPub sPriv }, ?_, ?_, ?_⟩
  · rw [NewAgent_ok_of_generateKey P rPub r r1 sPub sPriv hgen]
  · rw [NewAgent_ok_of_generateKey P rPub r r1 sPub sPriv hgen]
  · have hkey : (((NewCollector rPriv rPub).1.PrecomputeForAgent P id sPub).self.SharedKey
        id).ret = (P.precompute rPub sPriv, true) := by
      apply SharedKey_of_some
      rw [PrecomputeForAgent_same]
      show some (P.precompute sPub rPriv) = _
      rw [hDH]
    refine ⟨hkey, nonce.val ++ P.sealBox plain nonce (P.precompute rPub sPriv), ?_, ?_⟩
    · exact (Box_ok_iff P _ d r1 _).2 ⟨plain, nonce, r2, hm, hr, rfl⟩
    · have h := Unbox_of_open P nonce _ plain (P.precompute rPub sPriv) v0 hinv
      rw [hrt] at h
      simp only [Agent.PublicKey, Agent.SharedKey, hkey]
      exact h

/-- Witness of C2 on the toy collaborators: the scenario of `TestMain` and
`TestBox`, with the receiver private key of all twos. -/
theorem agent_collector_agreement_witness :
    (NewCollector (constKey 2) (constKey 6)).2 = none ∧
    ∃ a, (NewAgent toy (constKey 6) (entropy 1 60)).ret = .ok a ∧
      (NewAgent toy (constKey 6) (entropy 1 60)).rand = entropy 33 28 ∧
      (((NewCollector (constKey 2) (constKey 6)).1.PrecomputeForAgent toy "agent1"
          a.PublicKey.ret).self.SharedKey "agent1").ret = (a.SharedKey.ret, true) ∧
      ∃ env, (Box toy a.SharedKey.ret testDoc (entropy 33 28)).ret = .ok env ∧
        (Unbox toy env
          (((NewCollector (constKey 2) (constKey 6)).1.PrecomputeForAgent toy "agent1"
              a.PublicKey.ret).self.SharedKey "agent1").ret.1 emptyDoc).err = none ∧
        (Unbox toy env
          (((NewCollector (constKey 2) (constKey 6)).1.PrecomputeForAgent toy "agent1"
              a.PublicKey.ret).self.SharedKey "agent1").ret.1 emptyDoc).v = testDoc :=
  agent_collector_agreement toy (constKey 2) (constKey 6)
    (toyPublic ⟨entropy 1 32, by decide⟩) ⟨entropy 1 32, by decide⟩ "agent1" testDoc emptyDoc
    (entropy 1 60) (entropy 33 28) (entropy 57 4) [4, 84, 101, 115, 116, 104, 105]
    ⟨entropy 33 24, by decide⟩ rfl (by decide) rfl rfl (by decide) (by decide)

/-- C6 (re-registration is last-write-wins). For every registry `c`, after
`PrecomputeForAgent(id, pubA)` followed by `PrecomputeForAgent(id, pubB)`,
`SharedKey(id)` returns the key precomputed from `pubB` and the private key of
`c`, with `found = true`. -/
theorem reregistration_last_write_wins (P : Primitives Doc ρ) (c : Collector) (id : String)
    (pubA pubB : Key32) :
    (((c.PrecomputeForAgent P id pubA).self.PrecomputeForAgent P id pubB).self.SharedKey
        id).ret = (P.precompute pubB c.privateKey, true) := by
  apply SharedKey_of_some
  rw [PrecomputeForAgent_same]
  rfl

/-- C7 (sequential registration). Starting from `NewCollector(rPriv, rPub)`,
which returns no error, and applying in order registrations with pairwise
distinct identifiers: every registered identifier is found with the key
precomputed from its public key and `rPriv`; every other identifier is not
found and the zero key is returned; `PublicKey()` is still `rPub`.  A single
registration leaves the lookup of every other identifier unchanged. -/
theorem sequential_registration (P : Primitives Doc ρ) (rPriv rPub : Key32)
    (regs : List (String × Key32)) (hnd : (regs.map Prod.fst).Nodup) :
    (NewCollector rPriv rPub).2 = none ∧
      (∀ p ∈ regs, ((registerAll P (NewCollector rPriv rPub).1 regs).SharedKey p.1).ret
        = (P.precompute p.2 rPriv, true)) ∧
      (∀ id, id ∉ regs.map Prod.fst →
        ((registerAll P (NewCollector rPriv rPub).1 regs).SharedKey id).ret
          = (Bytes.zero 32, false)) ∧
      (registerAll P (NewCollector rPriv rPub).1 regs).PublicKey.ret = rPub ∧
      (∀ (c : Collector) (id other : String) (pub : Key32), other ≠ id →
        ((c.PrecomputeForAgent P id pub).self.SharedKey other).ret
          = (c.SharedKey other).ret) := by
  refine ⟨rfl, ?_, ?_, ?_, ?_⟩
  · intro p hp
    apply SharedKey_of_some
    exact registerAll_mem P regs _ hnd p hp
  · intro id hid
    apply SharedKey_of_none
    rw [registerAll_not_mem P regs _ id hid]
    rfl
  · exact (registerAll_keys P regs _).2
  · intro c id other pub hne
    exact SharedKey_congr _ _ _ (PrecomputeForAgent_other P c id other pub hne)

/-- Witness of C7 on the toy collaborators, with two registrations. -/
theorem sequential_registration_witness :
    (NewCollector (constKey 2) (constKey 6)).2 = none ∧
      (∀ p ∈ [("agent1", constKey 3), ("agent2", constKey 4)],
        ((registerAll toy (NewCollector (constKey 2) (constKey 6)).1
            [("agent1", constKey 3), ("agent2", constKey 4)]).SharedKey p.1).ret
          = (toy.precompute p.2 (constKey 2), true)) ∧
      (∀ id, id ∉ [("agent1", constKey 3), ("agent2", constKey 4)].map Prod.fst →
        ((registerAll toy (NewCollector (constKey 2) (constKey 6)).1
            [("agent1", constKey 3), ("agent2", constKey 4)]).SharedKey id).ret
          = (Bytes.zero 32, false)) ∧
      (registerAll toy (NewCollector (constKey 2) (constKey 6)).1
          [("agent1", constKey 3), ("agent2", constKey 4)]).PublicKey.ret = constKey 6 ∧
      (∀ (c : Collector) (id other : String) (pub : Key32), other ≠ id →
        ((c.PrecomputeForAgent toy id pub).self.SharedKey other).ret
          = (c.SharedKey other).ret) :=
  sequential_registration toy (constKey 2) (constKey 6)
    [("agent1", constKey 3), ("agent2", constKey 4)] (by decide)

/-- C8 (locking of the registry), evaluated on the code: the lookup `SharedKey`
reads the map with no lock held, for every registry and identifier, while
`PrecomputeForAgent` writes the map under the exclusive lock and `PublicKey`
reads its field between `RLock` and `RUnlock`. -/
theorem SharedKey_reads_map_unlocked (P : Primitives Doc ρ) (c : Collector) (agent : String)
    (pub : Key32) :
    (c.SharedKey agent).trace = [.mapRead agent] ∧
      guarded (c.SharedKey agent).trace = false ∧
      guarded (c.PrecomputeForAgent P agent pub).trace = true ∧
      guarded c.PublicKey.trace = true ∧
      (c.PrecomputeForAgent P agent pub).trace =
        [.rlock, .precompute pub c.privateKey, .runlock, .lock, .mapWrite agent, .unlock] ∧
      c.PublicKey.trace = [.rlock, .runlock] := by
  have ht : (c.SharedKey agent).trace = [.mapRead agent] := by
    unfold Collector.SharedKey
    cases c.sharedKeys agent <;> rfl
  refine ⟨ht, ?_, rfl, rfl, rfl, rfl⟩
  rw [ht]
  rfl

end Registry

end Cryptbson
